import Mathlib

/-!
Verification development for the resume-parser backend.

Shallow embedding of the core components of the pipeline:
  * token share storage (`app/core/share_storage.py`,
    `app/services/database_share_storage.py`),
  * the ephemeral resume store (`app/core/storage.py`),
  * the storage adapter and its shape normalization
    (`app/services/storage_adapter.py`, `app/services/database_storage.py`),
  * the upload/deduplication entry point (`app/api/resumes.py`),
  * the WebSocket connection manager (`app/api/websocket.py`),
  * the parsing orchestrator (`app/services/parser_orchestrator.py`,
    `app/services/ocr_extractor.py`, `app/services/text_extractor.py`,
    `app/models/progress.py`).

Modelling conventions: timestamps are integers (the code stores ISO strings
and compares the parsed datetimes; `isoformat`/`fromisoformat` round-trip
losslessly), Python dicts keyed by strings are association lists with unique
keys, Python floats are exact rationals, and fallible calls are `Except`
values.
-/

namespace ResumeParser

/-! ## Share storage (`app/core/share_storage.py`)

The in-memory backend keeps `_share_store : {share_token: share_metadata}`.
The metadata dict fields are modelled as a structure. -/

/-- One value of `_share_store` (`create_share` builds
`{share_token, resume_id, created_at, expires_at, access_count, is_active}`);
the token itself is the store key, so it is not repeated here. -/
structure ShareMeta where
  resume_id : String
  created_at : Int
  expires_at : Int
  access_count : Nat
  is_active : Bool
deriving DecidableEq

/-- The in-memory `_share_store` dict. -/
abbrev ShareStore := List (String × ShareMeta)

/-- `get_share`: `_share_store.get(share_token)`. -/
def get_share (store : ShareStore) (share_token : String) : Option ShareMeta :=
  List.lookup share_token store

/-- `create_share`: inserts fresh metadata with `expires_at = now + ttl`,
`access_count = 0`, `is_active = True` (ttl in the same time unit as the
model's integer clock). -/
def create_share (store : ShareStore) (share_token resume_id : String)
    (now ttl : Int) : ShareStore :=
  (share_token, ⟨resume_id, now, now + ttl, 0, true⟩) :: store

/-- `revoke_share`: if the token is present, set `is_active = False` on its
entry and return `True`; otherwise return `False`. -/
def revoke_share (store : ShareStore) (share_token : String) :
    Bool × ShareStore :=
  if (List.lookup share_token store).isSome then
    (true, store.map fun p =>
      if p.1 == share_token then (p.1, { p.2 with is_active := false }) else p)
  else
    (false, store)

/-- `increment_access`: bump `access_count` when the token exists. -/
def increment_access (store : ShareStore) (share_token : String) :
    Bool × ShareStore :=
  if (List.lookup share_token store).isSome then
    (true, store.map fun p =>
      if p.1 == share_token then
        (p.1, { p.2 with access_count := p.2.access_count + 1 })
      else p)
  else
    (false, store)

/-- `is_share_valid`: `False` when absent; `False` when `not is_active`;
`False` when `utcnow() > expires_at`; `True` otherwise. -/
def is_share_valid (store : ShareStore) (share_token : String) (now : Int) :
    Bool :=
  match List.lookup share_token store with
  | none => false
  | some share =>
    if !share.is_active then false
    else if now > share.expires_at then false
    else true

/-! ## Database share storage (`app/services/database_share_storage.py`)

Rows of the `ResumeShare` table. `get_share` selects by `share_token`
(`scalar_one_or_none`; tokens are unique, the model takes the first match). -/

/-- One `ResumeShare` row. -/
structure ShareRow where
  resume_id : String
  share_token : String
  created_at : Int
  expires_at : Int
  access_count : Nat
  is_active : Bool
deriving DecidableEq

/-- The `ResumeShare` table. -/
abbrev ShareTable := List ShareRow

/-- Database `get_share`: select where `share_token` matches. -/
def db_get_share (tbl : ShareTable) (share_token : String) : Option ShareRow :=
  tbl.find? fun r => r.share_token == share_token

/-- Database `revoke_share`: `UPDATE ... SET is_active = False WHERE
share_token = token`, reporting `rowcount > 0`. -/
def db_revoke_share (tbl : ShareTable) (share_token : String) :
    Bool × ShareTable :=
  (0 < tbl.countP (fun r => r.share_token == share_token),
   tbl.map fun r =>
     if r.share_token == share_token then { r with is_active := false } else r)

/-- Database `is_share_valid`: same checks as the in-memory backend, over
the row returned by `db_get_share`. -/
def db_is_share_valid (tbl : ShareTable) (share_token : String) (now : Int) :
    Bool :=
  match db_get_share tbl share_token with
  | none => false
  | some share =>
    if !share.is_active then false
    else if now > share.expires_at then false
    else true

/-! ## Ephemeral resume storage (`app/core/storage.py`)

`_resume_store : {resume_id: {"data": ..., "created_at": ..., ["updated_at"]}}`.
The stored value is generic in the record type, as the Python dict is. -/

/-- One `_resume_store` entry. -/
structure StoredEntry (α : Type) where
  data : α
  created_at : Int
  updated_at : Option Int
deriving DecidableEq

/-- The `_resume_store` dict. -/
abbrev ResumeStore (α : Type) := List (String × StoredEntry α)

/-- Dict assignment `d[k] = v`: replace in place when the key exists
(preserving insertion order), append otherwise. -/
def store_set {α : Type} (st : ResumeStore α) (k : String)
    (v : StoredEntry α) : ResumeStore α :=
  if (List.lookup k st).isSome then
    st.map fun p => if p.1 == k then (p.1, v) else p
  else
    st ++ [(k, v)]

/-- `save_parsed_resume`: upsert `{"data": parsed_data, "created_at": now}`. -/
def save_parsed_resume {α : Type} (st : ResumeStore α) (resume_id : String)
    (parsed_data : α) (now : Int) : ResumeStore α :=
  store_set st resume_id ⟨parsed_data, now, none⟩

/-- `get_parsed_resume`: the `"data"` field when present, else `None`. -/
def get_parsed_resume {α : Type} (st : ResumeStore α) (resume_id : String) :
    Option α :=
  (List.lookup resume_id st).map (·.data)

/-- `update_parsed_resume`: `False` when the id is absent; otherwise mutate
`"data"` and `"updated_at"` in place and return `True`. -/
def update_parsed_resume {α : Type} (st : ResumeStore α) (resume_id : String)
    (updated_data : α) (now : Int) : Bool × ResumeStore α :=
  if (List.lookup resume_id st).isSome then
    (true, st.map fun p =>
      if p.1 == resume_id then
        (p.1, { p.2 with data := updated_data, updated_at := some now })
      else p)
  else
    (false, st)

/-- `delete_parsed_resume`: `del _resume_store[resume_id]` and `True` when
present, `False` otherwise. -/
def delete_parsed_resume {α : Type} (st : ResumeStore α) (resume_id : String) :
    Bool × ResumeStore α :=
  if (List.lookup resume_id st).isSome then
    (true, st.filter fun p => !(p.1 == resume_id))
  else
    (false, st)

/-! ## Python string primitives

The Pydantic field validators of `ParsedData` (`app/models/progress.py`)
manipulate strings character-wise (`v.lower()`, `v.split('@')`,
`v.replace(x, '')`, membership tests).  Strings handled by those validators
are modelled as character lists so the operations have a direct
structural-recursion embedding. -/

/-- Character-list strings, for the fields the validators touch. -/
abbrev Str := List Char

/-- ASCII lowering of one character, as Python's `str.lower()` acts on the
ASCII range the validators care about: `A`–`Z` shift by 32, everything else
is untouched. -/
def lowerChar (c : Char) : Char :=
  if 65 ≤ c.toNat ∧ c.toNat ≤ 90 then Char.ofNat (c.toNat + 32) else c

/-- `s.lower()`. -/
def pyLower (s : Str) : Str := s.map lowerChar

/-- `c in s`. -/
def strContains (s : Str) (c : Char) : Bool := s.any fun a => a == c

/-- `s.split(sep)` for a one-character separator: always returns at least one
(possibly empty) piece, matching Python. -/
def splitChar (sep : Char) : Str → List Str
  | [] => [[]]
  | c :: cs =>
    if c = sep then [] :: splitChar sep cs
    else
      match splitChar sep cs with
      | [] => [[c]]
      | h :: t => (c :: h) :: t

/-- `s.split('@')[-1]` (the split list is never empty). -/
def lastSplitPiece (sep : Char) (s : Str) : Str :=
  (splitChar sep s).getLastD []

/-- `validate_email`: `None` stays `None`; otherwise return `v.lower()` when
`'@' in v and '.' in v.split('@')[-1]`, else `None`. -/
def validate_email (v : Option Str) : Option Str :=
  match v with
  | none => none
  | some s =>
    if strContains s '@' && strContains (lastSplitPiece '@' s) '.' then
      some (pyLower s)
    else
      none

/-- The five characters `validate_phone` strips
(`'+'`, `'-'`, `' '`, `'('`, `')'`). -/
def isPhoneSep (c : Char) : Bool :=
  c == '+' || c == '-' || c == ' ' || c == '(' || c == ')'

/-- `validate_phone`: `None` stays `None`; strip the formatting characters
(`replace(x, '')` for each) and return the original string when the cleaned
form is non-empty with at least 10 characters, else `None`. -/
def validate_phone (v : Option Str) : Option Str :=
  match v with
  | none => none
  | some s =>
    let cleaned := s.filter fun c => !isPhoneSep c
    if !cleaned.isEmpty && 10 ≤ cleaned.length then some s else none

/-! ## `ParsedData` (`app/models/progress.py`)

The flat validated record.  `work_experience`, `education` and `projects`
entries are dicts the storage layer passes through untouched; they are
modelled by the opaque token type `Item`.  `additional_info` is a dict the
layer likewise only passes through or rebuilds; its values in the flows at
hand are string lists. -/

/-- Opaque pass-through entry (one `Dict[str, Any]` element of
`work_experience` / `education` / `projects`). -/
abbrev Item := Str

/-- `additional_info` dict. -/
abbrev AddInfo := List (Str × List Str)

/-- One element of `ParsedData.languages`: `_normalize_nlp_output_to_parsed_data`
builds `{"name": lang, "fluency": "unknown"}` dicts, while
`_jsonb_to_parsed_data` passes raw strings through unchanged. -/
inductive LangEntry where
  | entry (name fluency : Str)
  | raw (s : Str)
deriving DecidableEq

/-- The `ParsedData` Pydantic model, fields in source order.
`extraction_confidence` carries the model's `ge=0, le=1` constraint as a
domain assumption: every construction site below passes a clamped value. -/
structure ParsedData where
  full_name : Option Str
  email : Option Str
  phone : Option Str
  location : Option Str
  linkedin_url : Option Str
  github_url : Option Str
  portfolio_url : Option Str
  summary : Option Str
  skills : List Str
  work_experience : List Item
  education : List Item
  certifications : List Str
  languages : List LangEntry
  projects : List Item
  additional_info : AddInfo
  extraction_confidence : ℚ
deriving DecidableEq

/-- Constructing `ParsedData(...)` runs the two field validators
(`validate_phone`, `validate_email`); all other fields pass through. -/
def validateParsedData (p : ParsedData) : ParsedData :=
  { p with email := validate_email p.email, phone := validate_phone p.phone }

/-! ## Raw NLP output and the adapter's normalization
(`app/services/storage_adapter.py`) -/

/-- The `skills` value of raw NLP/AI output: either a categorized dict
(category name to string list; a `"confidence"` key is skipped by the
normalizer), a flat list, or some other shape (normalized to `[]`). -/
inductive RawSkills where
  | dict (entries : List (Str × List Str))
  | flat (items : List Str)
  | other
deriving DecidableEq

/-- The `personal_info` sub-dict of raw NLP output (fields may be absent or
empty strings; `get(...) or None` turns both into `None`). -/
structure RawPersonal where
  full_name : Option Str
  email : Option Str
  phone : Option Str
  location : Option Str
  linkedin_url : Option Str
  github_url : Option Str
  portfolio_url : Option Str
  summary : Option Str
deriving DecidableEq

/-- One raw parsed-resume record as produced by the NLP/AI stages and handed
to the storage layer.  `confidence_scores` is accessed only through
`.get("overall", 0.0)`, modelled as the single field `confidence_overall`
(its value when the key chain is absent is `0`). -/
structure RawRecord where
  personal_info : RawPersonal
  skills : RawSkills
  work_experience : List Item
  education : List Item
  projects : List Item
  additional_info : AddInfo
  confidence_overall : ℚ
deriving DecidableEq

/-- Key `"confidence"` of a categorized skills dict. -/
def confidenceKey : Str := "confidence".toList

/-- Key `"certifications"` of a categorized skills dict. -/
def certificationsKey : Str := "certifications".toList

/-- Key `"languages"` of a categorized skills dict. -/
def languagesKey : Str := "languages".toList

/-- Key `"all"` of a categorized skills column. -/
def allKey : Str := "all".toList

/-- Key `"projects"` of a categorized skills column. -/
def projectsKey : Str := "projects".toList

/-- Key `"publications"` of a categorized skills column. -/
def publicationsKey : Str := "publications".toList

/-- The literal `"unknown"` fluency. -/
def unknownStr : Str := "unknown".toList

/-- `personal_info.get(field) or None`: empty strings become `None`. -/
def orNone (v : Option Str) : Option Str :=
  match v with
  | none => none
  | some s => if s.isEmpty then none else some s

/-- The skills-flattening loop of `_normalize_nlp_output_to_parsed_data`:
for a dict, concatenate every category's list except `"confidence"`; a list
passes through; anything else becomes `[]`. -/
def flattenSkills : RawSkills → List Str
  | .dict entries =>
    ((entries.filter fun e => !(e.1 == confidenceKey)).map (·.2)).flatten
  | .flat items => items
  | .other => []

/-- `"k" in skills_data and skills_data["k"]` on a categorized dict. -/
def lookupSkillKey (sk : RawSkills) (k : Str) : Option (List Str) :=
  match sk with
  | .dict entries => List.lookup k entries
  | _ => none

/-- Python's `round` (round half to even) on an exact rational. -/
def roundHalfEven (x : ℚ) : ℤ :=
  let f := ⌊x⌋
  if x - f < 1 / 2 then f
  else if 1 / 2 < x - f then f + 1
  else if f % 2 = 0 then f else f + 1

/-- `round(x, 2)`. -/
def pyRound2 (x : ℚ) : ℚ := (roundHalfEven (x * 100) : ℚ) / 100

/-- `StorageAdapter._normalize_nlp_output_to_parsed_data` followed by the
`ParsedData(**normalized)` construction (which runs the validators):
empty-string personal fields become `None`, categorized skills are flattened,
`certifications`/`languages` are pulled from the skills dict when present,
and the overall confidence is rescaled from 0–100 to 0–1, clamped and
rounded to two decimals. -/
def normalizeNlpOutput (r : RawRecord) : ParsedData :=
  validateParsedData
    { full_name := orNone r.personal_info.full_name
      email := orNone r.personal_info.email
      phone := orNone r.personal_info.phone
      location := orNone r.personal_info.location
      linkedin_url := orNone r.personal_info.linkedin_url
      github_url := orNone r.personal_info.github_url
      portfolio_url := orNone r.personal_info.portfolio_url
      summary := orNone r.personal_info.summary
      skills := flattenSkills r.skills
      work_experience := r.work_experience
      education := r.education
      certifications := (lookupSkillKey r.skills certificationsKey).getD []
      languages :=
        ((lookupSkillKey r.skills languagesKey).getD []).map
          fun lang => .entry lang unknownStr
      projects := r.projects
      additional_info := r.additional_info
      extraction_confidence :=
        pyRound2 (max 0 (min 1 (r.confidence_overall / 100))) }

/-! ## Durable JSONB rows (`app/services/database_storage.py`) -/

/-- The `skills` JSONB column: the write path stores `ParsedData.skills`,
a flat list; the read path also accepts a categorized dict. -/
inductive SkillsCol where
  | asList (items : List Str)
  | asDict (entries : List (Str × List Str))
deriving DecidableEq

/-- The `confidence_scores` JSONB column. -/
structure ConfidenceScores where
  overall : ℚ
  personal_info : ℚ
  work_experience : ℚ
  education : ℚ
  skills : ℚ
deriving DecidableEq

/-- One `ParsedResumeData` row (`resume_id` is the table key in the model).
`personal_info` drops `None` values on write and is read back with `.get`,
which is the identity on option-valued fields, so the options are stored
directly. -/
structure JsonbRow where
  personal_info : RawPersonal
  work_experience : List Item
  education : List Item
  skills : SkillsCol
  confidence_scores : ConfidenceScores
deriving DecidableEq

/-- `DatabaseStorageService._parsed_data_to_jsonb`: nest the personal
fields, store the flat skills list, and replicate `extraction_confidence`
into every `confidence_scores` slot (no rescaling here). -/
def parsedDataToJsonb (p : ParsedData) : JsonbRow :=
  { personal_info :=
      ⟨p.full_name, p.email, p.phone, p.location, p.linkedin_url,
       p.github_url, p.portfolio_url, p.summary⟩
    work_experience := p.work_experience
    education := p.education
    skills := .asList p.skills
    confidence_scores :=
      ⟨p.extraction_confidence, p.extraction_confidence,
       p.extraction_confidence, p.extraction_confidence,
       p.extraction_confidence⟩ }

/-- `DatabaseStorageService._jsonb_to_parsed_data` followed by the
`ParsedData(...)` construction (validators run again): a dict-valued skills
column is unpacked by the `"all"`/`"certifications"`/`"languages"`/
`"projects"`/`"publications"` keys (raw language strings pass through),
a list-valued one becomes the flat skills list with every categorized field
empty; `additional_info` is rebuilt as `{"publications": ...}`. -/
def jsonbToParsedData (row : JsonbRow) : ParsedData :=
  let skillsList :=
    match row.skills with
    | .asDict entries => (List.lookup allKey entries).getD []
    | .asList items => items
  let certifications :=
    match row.skills with
    | .asDict entries => (List.lookup certificationsKey entries).getD []
    | .asList _ => []
  let languages :=
    match row.skills with
    | .asDict entries =>
        ((List.lookup languagesKey entries).getD []).map LangEntry.raw
    | .asList _ => []
  let projects :=
    match row.skills with
    | .asDict entries => (List.lookup projectsKey entries).getD []
    | .asList _ => []
  let publications :=
    match row.skills with
    | .asDict entries => (List.lookup publicationsKey entries).getD []
    | .asList _ => []
  validateParsedData
    { full_name := row.personal_info.full_name
      email := row.personal_info.email
      phone := row.personal_info.phone
      location := row.personal_info.location
      linkedin_url := row.personal_info.linkedin_url
      github_url := row.personal_info.github_url
      portfolio_url := row.personal_info.portfolio_url
      summary := row.personal_info.summary
      skills := skillsList
      work_experience := row.work_experience
      education := row.education
      certifications := certifications
      languages := languages
      projects := projects
      additional_info := [(publicationsKey, publications)]
      extraction_confidence := row.confidence_scores.overall }

/-- The nested `skills` object of the frontend shape. -/
structure SkillsObj where
  technical : List Str
  soft_skills : List Str
  languages : List LangEntry
  certifications : List Str
deriving DecidableEq

/-- The nested record shape `StorageAdapter.get_parsed_data` hands to
callers (`projects` / `additional_info` are not part of it). -/
structure NestedRecord where
  personal_info : RawPersonal
  work_experience : List Item
  education : List Item
  skills : SkillsObj
  confidence_scores : ConfidenceScores
deriving DecidableEq

/-- `StorageAdapter._parsed_data_to_nested_dict`: rebuild the nested
personal dict, put the whole flat skills list under `technical`
(`soft_skills` reads a key `ParsedData` does not have, hence `[]`), and
rescale the confidence to 0–100 rounded to two decimals in every slot. -/
def parsedDataToNestedDict (p : ParsedData) : NestedRecord :=
  let c := pyRound2 (p.extraction_confidence * 100)
  { personal_info :=
      ⟨p.full_name, p.email, p.phone, p.location, p.linkedin_url,
       p.github_url, p.portfolio_url, p.summary⟩
    work_experience := p.work_experience
    education := p.education
    skills := ⟨p.skills, [], p.languages, p.certifications⟩
    confidence_scores := ⟨c, c, c, c, c⟩ }

/-! ## The durable parsed-data table and the adapter routes -/

/-- The `ParsedResumeData` table, keyed by `resume_id`. -/
abbrev ParsedTable := List (String × JsonbRow)

/-- `DatabaseStorageService.save_parsed_data`: `db.add` appends a fresh row
(no upsert). -/
def db_save_parsed_data (tbl : ParsedTable) (resume_id : String)
    (p : ParsedData) : ParsedTable :=
  tbl ++ [(resume_id, parsedDataToJsonb p)]

/-- `DatabaseStorageService.get_parsed_data`: select by `resume_id`
(`scalar_one_or_none`; the model takes the first match) and convert back. -/
def db_get_parsed_data (tbl : ParsedTable) (resume_id : String) :
    Option ParsedData :=
  (List.lookup resume_id tbl).map jsonbToParsedData

/-- `StorageAdapter.save_parsed_data`, durable route (flag set and the id a
well-formed UUID): normalize, validate and store; the metadata-status update
it also performs does not touch this table. -/
def adapter_save_parsed_data_db (tbl : ParsedTable) (resume_id : String)
    (r : RawRecord) : ParsedTable :=
  db_save_parsed_data tbl resume_id (normalizeNlpOutput r)

/-- `StorageAdapter.get_parsed_data`, durable route: read the row and apply
`_parsed_data_to_nested_dict`. -/
def adapter_get_parsed_data_db (tbl : ParsedTable) (resume_id : String) :
    Option NestedRecord :=
  (db_get_parsed_data tbl resume_id).map parsedDataToNestedDict

/-- The adapter's composed shape normalization: what a caller is promised to
see for a record it saved (`_normalize_nlp_output_to_parsed_data`, the
`ParsedData` validators, then `_parsed_data_to_nested_dict`). -/
def adapterShapeNormalize (r : RawRecord) : NestedRecord :=
  parsedDataToNestedDict (normalizeNlpOutput r)

/-- `StorageAdapter.delete_parsed_data`: on the durable route the body is
`return True` (a placeholder — nothing is deleted); on the ephemeral route
it delegates to `delete_parsed_resume`. -/
def adapter_delete_parsed_data (use_database : Bool) (tbl : ParsedTable)
    (st : ResumeStore RawRecord) (resume_id : String) :
    Bool × ParsedTable × ResumeStore RawRecord :=
  if use_database then
    (true, tbl, st)
  else
    let r := delete_parsed_resume st resume_id
    (r.1, tbl, r.2)

/-! ## Progress events (`app/models/progress.py`) -/

/-- `ProgressStage`. -/
inductive PStage where
  | text_extraction
  | nlp_parsing
  | ai_enhancement
  | complete
  | error
deriving DecidableEq

/-- `ProgressUpdate.__init__` clamp: `max(0, min(100, progress))`. -/
def clampProgress (p : Int) : Int := max 0 (min 100 p)

/-- One broadcast `ProgressUpdate`, generic in the parsed-record type.
`errInfo` is the `{"error_code", "error_message"}` payload an
`ErrorProgress` puts into `data` (it is not a parsed record, so it gets its
own field); `data` is the parsed record a `CompleteProgress` carries. -/
structure PEvent (α : Type) where
  stage : PStage
  progress : Int
  status : String
  data : Option α
  errInfo : Option (String × String)
deriving DecidableEq

/-- A plain `ProgressUpdate(stage, progress, status)`. -/
def mkProgress {α : Type} (stage : PStage) (p : Int) (status : String) :
    PEvent α :=
  ⟨stage, clampProgress p, status, none, none⟩

/-- `CompleteProgress`: stage `complete`, progress 100, the record as
payload. -/
def mkComplete {α : Type} (d : α) : PEvent α :=
  ⟨.complete, clampProgress 100, "Parsing complete!", some d, none⟩

/-- `ErrorProgress(error_message, error_code)`: stage `error`, progress 0. -/
def mkError {α : Type} (msg code : String) : PEvent α :=
  ⟨.error, clampProgress 0, "Error: " ++ msg, none, some (code, msg)⟩

/-! ## Text extraction (`app/services/text_extractor.py`,
`app/services/ocr_extractor.py`)

The formats' concrete extractors (pdfplumber, python-docx, utf-8 decode,
pdf2image + tesseract) are external collaborators; their outcomes enter the
model as `Except` oracles carrying the exception text on failure. -/

/-- The exceptions the pipeline distinguishes. -/
inductive PyExc where
  | textExtractionError (msg : String)
  | ocrExtractionError (msg : String)
  | exc (msg : String)
deriving DecidableEq

/-- `str(e)`. -/
def pyExcMsg : PyExc → String
  | .textExtractionError m => m
  | .ocrExtractionError m => m
  | .exc m => m

/-- The lowered filename suffix dispatched on by `extract_text`. -/
inductive FileExt where
  | pdf
  | docx
  | doc
  | txt
  | other (ext : String)
deriving DecidableEq

/-- `MIN_TEXT_LENGTH`. -/
def MIN_TEXT_LENGTH : Nat := 100

/-- `_is_text_sufficient`: `len(text) >= MIN_TEXT_LENGTH if text else False`. -/
def is_text_sufficient (text : String) : Bool :=
  if text.isEmpty then false else MIN_TEXT_LENGTH ≤ text.length

/-- `extract_text_with_ocr(file_path, file_content, regular_text)` for the
PDF route (where `regular_text` is never `None`): return the regular text
when sufficient, otherwise run OCR (`_extract_with_ocr` wraps any failure in
`OCRExtractionError`).  The second component records whether the OCR
fallback was invoked. -/
def extract_text_with_ocr (regular_text : String)
    (ocr : Except String String) : Except PyExc String × Bool :=
  if is_text_sufficient regular_text then
    (.ok regular_text, false)
  else
    match ocr with
    | .ok t => (.ok t, true)
    | .error m =>
      (.error (.ocrExtractionError ("OCR extraction failed: " ++ m)), true)

/-- `extract_text(file_path, file_content)`: dispatch on the suffix; PDF
extraction feeds `extract_text_with_ocr`, DOCX/DOC/TXT return their
extractor's result directly (failures wrapped in `TextExtractionError`),
anything else raises `TextExtractionError("Unsupported file type: ...")`.
The Boolean records whether the OCR fallback was invoked. -/
def extract_text (ext : FileExt) (regular ocr : Except String String) :
    Except PyExc String × Bool :=
  match ext with
  | .pdf =>
    match regular with
    | .ok t => extract_text_with_ocr t ocr
    | .error m =>
      (.error (.textExtractionError ("Failed to extract text from PDF: " ++ m)),
       false)
  | .docx | .doc =>
    match regular with
    | .ok t => (.ok t, false)
    | .error m =>
      (.error
        (.textExtractionError ("Failed to extract text from DOCX: " ++ m)),
       false)
  | .txt =>
    match regular with
    | .ok t => (.ok t, false)
    | .error m =>
      (.error (.textExtractionError ("Failed to extract text from TXT: " ++ m)),
       false)
  | .other e =>
    (.error (.textExtractionError ("Unsupported file type: " ++ e)), false)

/-! ## The orchestrator (`app/services/parser_orchestrator.py`) -/

/-- Decidable equality of `Except` outcomes. -/
instance exceptDecEq {ε α : Type} [DecidableEq ε] [DecidableEq α] :
    DecidableEq (Except ε α) := fun a b =>
  match a, b with
  | .error e, .error f =>
    if h : e = f then isTrue (by rw [h]) else isFalse (by simp [h])
  | .ok x, .ok y =>
    if h : x = y then isTrue (by rw [h]) else isFalse (by simp [h])
  | .error _, .ok _ => isFalse (by simp)
  | .ok _, .error _ => isFalse (by simp)

/-- Everything observable about one `parse_resume` run: the broadcast
events in order, the returned-or-raised outcome, and the save-call argument
(`None` when no save happened). -/
structure RunResult (α : Type) where
  events : List (PEvent α)
  outcome : Except PyExc α
  persisted : Option (String × α)
deriving DecidableEq

/-- `ParserOrchestrator.parse_resume`, shallowly embedded over oracles for
the three leaf collaborators: `regular`/`ocr` feed `extract_text`, `nlpR`
is `extract_entities`, `aiR` is `enhance_with_ai`.  `serialize` is
`_serialize_for_websocket` (the identity on JSON-plain records; it rewrites
UUID/datetime/Decimal leaves).  Stage failures send a progress-0 update for
the stage, then the outer handler broadcasts an `ErrorProgress`
(`TEXT_EXTRACTION_ERROR` for a `TextExtractionError`, `PARSE_ERROR`
otherwise) and re-raises; an AI failure is caught locally and the stage
returns the NLP output unchanged. -/
def parse_resume {α : Type} (serialize : α → α) (resume_id : String)
    (ext : FileExt) (regular ocr : Except String String)
    (nlpR : Except String α) (aiR : Except String α) (enable_ai : Bool) :
    RunResult α :=
  let ev1 : PEvent α := mkProgress .text_extraction 10 "Starting text extraction..."
  let ev2 : PEvent α := mkProgress .text_extraction 30 "Extracting text from file..."
  match (extract_text ext regular ocr).1 with
  | .error e =>
    let failEv : PEvent α :=
      mkProgress .text_extraction 0 ("Extraction failed: " ++ pyExcMsg e)
    let errEv : PEvent α :=
      match e with
      | .textExtractionError m =>
        mkError ("Text extraction failed: " ++ m) "TEXT_EXTRACTION_ERROR"
      | e2 => mkError ("Parsing failed: " ++ pyExcMsg e2) "PARSE_ERROR"
    { events := [ev1, ev2, failEv, errEv]
      outcome := .error e
      persisted := none }
  | .ok raw_text =>
    let ev3 : PEvent α := mkProgress .text_extraction 100 "Text extraction complete!"
    let ev4 : PEvent α := mkProgress .nlp_parsing 40 "Extracting entities using NLP..."
    let ev5 : PEvent α := mkProgress .nlp_parsing 60 "Analyzing resume structure..."
    match nlpR with
    | .error m =>
      { events :=
          [ev1, ev2, ev3, ev4, ev5,
           mkProgress .nlp_parsing 0 ("NLP parsing failed: " ++ m),
           mkError ("Parsing failed: " ++ m) "PARSE_ERROR"]
        outcome := .error (.exc m)
        persisted := none }
    | .ok parsed0 =>
      let ev6 : PEvent α := mkProgress .nlp_parsing 100 "Entity extraction complete!"
      let aiStep : α × List (PEvent α) :=
        if enable_ai && !raw_text.isEmpty then
          match aiR with
          | .ok enhanced =>
            (enhanced,
             [mkProgress .ai_enhancement 70 "Enhancing with AI...",
              mkProgress .ai_enhancement 100 "AI enhancement complete!"])
          | .error m =>
            (parsed0,
             [mkProgress .ai_enhancement 70 "Enhancing with AI...",
              mkProgress .ai_enhancement 100 ("AI enhancement skipped: " ++ m)])
        else
          (parsed0, [])
      { events :=
          [ev1, ev2, ev3, ev4, ev5, ev6] ++ aiStep.2 ++
            [mkComplete (serialize aiStep.1)]
        outcome := .ok aiStep.1
        persisted := some (resume_id, aiStep.1) }

/-- The progress percentages a run published for one stage, in publish
order. -/
def stageProgresses {α : Type} (run : RunResult α) (s : PStage) : List Int :=
  (run.events.filter fun e => e.stage == s).map (·.progress)

/-! ## WebSocket connection manager (`app/api/websocket.py`)

A subscriber is a WebSocket handle: its observable `client_state` attribute
(`getattr(connection, 'client_state', None)`, compared against the string
`'DISCONNECTED'`) and an oracle for whether `send_json` succeeds or raises.
`cid` keeps distinct handles distinguishable inside a set. -/

/-- Outcome of `await connection.send_json(message)`. -/
inductive SendOutcome where
  | ok
  | raises (msg : String)
deriving DecidableEq

/-- One registered WebSocket connection. -/
structure Conn where
  cid : Nat
  clientState : Option String
  send : SendOutcome
deriving DecidableEq

/-- `active_connections : Dict[str, Set[WebSocket]]` (each set as a
duplicate-free list in insertion order). -/
abbrev Registry := List (String × List Conn)

/-- `ConnectionManager.disconnect`: discard the connection from the id's
set, dropping the set's entry once empty. -/
def disconnect (reg : Registry) (c : Conn) (resume_id : String) : Registry :=
  match List.lookup resume_id reg with
  | none => reg
  | some conns =>
    let remaining := conns.filter fun x => !(x == c)
    if remaining.isEmpty then
      reg.filter fun p => !(p.1 == resume_id)
    else
      reg.map fun p => if p.1 == resume_id then (p.1, remaining) else p

/-- The delivery loop of `broadcast_to_resume`, in the `Except` monad so a
propagating exception is representable: for each connection, when
`client_state != 'DISCONNECTED'` the send is attempted inside
`try/except`, where every exception class
(`RuntimeError`/`WebSocketDisconnect` and the catch-all) marks the
connection disconnected; a connection observed in state `'DISCONNECTED'`
is marked without a send.  Returns (delivered, marked-disconnected), both
in iteration order. -/
def broadcastLoop : List Conn → Except String (List Conn × List Conn)
  | [] => .ok ([], [])
  | c :: rest =>
    let step : Except String (List Conn × List Conn) :=
      if c.clientState ≠ some "DISCONNECTED" then
        match c.send with
        | .ok => .ok ([c], [])
        | .raises _ => .ok ([], [c])
      else
        .ok ([], [c])
    match step with
    | .error e => .error e
    | .ok s =>
      match broadcastLoop rest with
      | .error e => .error e
      | .ok restPair => .ok (s.1 ++ restPair.1, s.2 ++ restPair.2)

/-- `ConnectionManager.broadcast_to_resume`: nothing happens when the id
has no subscriber set; otherwise run the delivery loop over the id's set
and only then apply `disconnect` for each marked connection.  The result is
(delivered connections, updated registry). -/
def broadcast_to_resume (reg : Registry) (resume_id : String) :
    Except String (List Conn × Registry) :=
  match List.lookup resume_id reg with
  | none => .ok ([], reg)
  | some conns =>
    match broadcastLoop conns with
    | .error e => .error e
    | .ok pair =>
      .ok (pair.1, pair.2.foldl (fun r c => disconnect r c resume_id) reg)

/-- The id's current subscriber set. -/
def subscribersOf (reg : Registry) (resume_id : String) : List Conn :=
  (List.lookup resume_id reg).getD []

/-- Delivery to `c` succeeds: not observed `'DISCONNECTED'` and `send_json`
does not raise. -/
def deliveryOk (c : Conn) : Bool :=
  decide (c.clientState ≠ some "DISCONNECTED") && (c.send == .ok)

/-- Modelled from the spec: `publish` as §4.2 words it — snapshot the
subscriber set, compute the delivered and failed subscribers from the
snapshot alone, then apply the removals to the registry after the snapshot
iteration is over. -/
def specPublish (reg : Registry) (resume_id : String) :
    List Conn × Registry :=
  let snapshot := subscribersOf reg resume_id
  let delivered := snapshot.filter deliveryOk
  let failed := snapshot.filter fun c => !deliveryOk c
  (delivered, failed.foldl (fun r c => disconnect r c resume_id) reg)

/-! ## Upload and deduplication (`app/api/resumes.py`)

`upload_resume` after validation: hash the content, and only when
`settings.USE_DATABASE` is set look the hash up among existing `Resume`
rows — a hit returns the existing row's id without scheduling the
background task; otherwise (and always on the in-memory route) a fresh id
is returned and `parse_resume_background` is scheduled.  Submissions are
keyed here by their content hash (SHA-256 of the bytes). -/

/-- The state the upload endpoint touches: the `Resume` metadata rows
(id, file_hash) and the pipeline executions started so far
(id, file_hash). -/
structure UploadState where
  dbResumes : List (String × String)
  runs : List (String × String)
deriving DecidableEq

/-- `select(Resume).where(Resume.file_hash == file_hash)` —
`scalar_one_or_none`, first match. -/
def findByHash (rows : List (String × String)) (file_hash : String) :
    Option String :=
  (rows.find? fun p => p.2 == file_hash).map (·.1)

/-- `upload_resume` (post-validation): returns the response's resume id,
the new state, and whether a pipeline run was started. -/
def upload_resume (use_database : Bool) (st : UploadState)
    (file_hash fresh_id : String) : String × UploadState × Bool :=
  if use_database then
    match findByHash st.dbResumes file_hash with
    | some existing_id => (existing_id, st, false)
    | none =>
      (fresh_id,
       { dbResumes := st.dbResumes ++ [(fresh_id, file_hash)]
         runs := st.runs ++ [(fresh_id, file_hash)] },
       true)
  else
    (fresh_id, { st with runs := st.runs ++ [(fresh_id, file_hash)] }, true)

/-- How many pipeline executions were started for a content hash. -/
def runsFor (st : UploadState) (file_hash : String) : Nat :=
  st.runs.countP fun p => p.2 == file_hash

/-! ## Dictionary lemmas -/

/-- Looking up `k` after an in-place update at `k` maps the old value. -/
theorem lookup_map_update {β : Type} (store : List (String × β)) (k : String)
    (g : β → β) :
    List.lookup k (store.map fun p => if p.1 == k then (p.1, g p.2) else p) =
      (List.lookup k store).map g := by
  induction store with
  | nil => rfl
  | cons a rest ih =>
    obtain ⟨ka, va⟩ := a
    by_cases h : ka = k
    · subst h
      simp only [List.map_cons, beq_self_eq_true, if_true]
      simp only [List.lookup, beq_self_eq_true, ih]
      rfl
    · have hk : (k == ka) = false := beq_eq_false_iff_ne.mpr fun e => h e.symm
      have hk2 : (ka == k) = false := beq_eq_false_iff_ne.mpr h
      simp only [List.map_cons, hk2, Bool.false_eq_true, if_false]
      simp only [List.lookup, hk, ih]

/-- Looking up `k` after filtering out every entry keyed `k` fails. -/
theorem lookup_filter_self {β : Type} (store : List (String × β))
    (k : String) :
    List.lookup k (store.filter fun p => !(p.1 == k)) = none := by
  induction store with
  | nil => rfl
  | cons a rest ih =>
    obtain ⟨ka, va⟩ := a
    by_cases h : ka = k
    · subst h
      simp only [List.filter, beq_self_eq_true, Bool.not_true]
      exact ih
    · have hk : (k == ka) = false := beq_eq_false_iff_ne.mpr fun e => h e.symm
      have hk2 : (ka == k) = false := beq_eq_false_iff_ne.mpr h
      simp only [List.filter, hk2, Bool.not_false]
      simp only [List.lookup, hk, ih]

/-- Appending a `k`-keyed entry to a store without one makes lookup find
it. -/
theorem lookup_append_fresh {β : Type} (store : List (String × β))
    (k : String) (v : β) (h : List.lookup k store = none) :
    List.lookup k (store ++ [(k, v)]) = some v := by
  induction store with
  | nil => simp [List.lookup]
  | cons a rest ih =>
    obtain ⟨ka, va⟩ := a
    by_cases hk : k = ka
    · simp [List.lookup, hk] at h
    · have hk2 : (k == ka) = false := beq_eq_false_iff_ne.mpr hk
      simp only [List.cons_append, List.lookup, hk2] at h ⊢
      exact ih h

/-- `find?` by token over the revoke-update map of a share table factors
through the original `find?`. -/
theorem find?_map_revoke (tbl : ShareTable) (token : String) :
    List.find? (fun r => r.share_token == token)
        (tbl.map fun r =>
          if r.share_token == token then { r with is_active := false }
          else r) =
      (List.find? (fun r => r.share_token == token) tbl).map
        (fun r =>
          if r.share_token == token then { r with is_active := false }
          else r) := by
  induction tbl with
  | nil => rfl
  | cons a rest ih =>
    by_cases hat : a.share_token = token
    · have hb : (a.share_token == token) = true := beq_iff_eq.mpr hat
      simp only [List.map_cons, hb, if_true]
      rw [List.find?_cons_of_pos _ (by simpa using hat),
        List.find?_cons_of_pos _ (by simpa using hat)]
      simp [hat]
    · have hb : (a.share_token == token) = false :=
        beq_eq_false_iff_ne.mpr hat
      simp only [List.map_cons, hb, Bool.false_eq_true, if_false]
      rw [List.find?_cons_of_neg _ (by simpa using hat),
        List.find?_cons_of_neg _ (by simpa using hat)]
      exact ih

/-! ## Claim C10 -/

/-- Claim C10 (confirmed): updating a resume id absent from the ephemeral
store returns `False` and leaves the store exactly as it was. -/
theorem C10_update_absent_noop {α : Type} (st : ResumeStore α)
    (resume_id : String) (data : α) (now : Int)
    (h : get_parsed_resume st resume_id = none) :
    update_parsed_resume st resume_id data now = (false, st) := by
  have hl : List.lookup resume_id st = none := by
    unfold get_parsed_resume at h
    exact Option.map_eq_none'.mp h
  unfold update_parsed_resume
  simp [hl]

/-- Witness for C10 at a concrete store and id. -/
theorem C10_update_absent_noop_witness :
    update_parsed_resume ([("a", ⟨0, 0, none⟩)] : ResumeStore Nat) "b" 7 3 =
      (false, [("a", ⟨0, 0, none⟩)]) :=
  C10_update_absent_noop [("a", ⟨0, 0, none⟩)] "b" 7 3 (by rfl)

/-! ## Claim C5 -/

/-- Claim C5, counterexample: at the instant `now = expires_at` the
in-memory `is_share_valid` still answers `True` (the code only rejects
`now > expires_at`), while the claim requires `now` to be strictly before
`expires_at` — so "valid iff active and now strictly before expires_at" is
false at this input. -/
theorem C5_counterexample :
    is_share_valid [("t", ⟨"r", 0, 100, 0, true⟩)] "t" 100 = true ∧
      ¬((100 : Int) < 100) := by
  exact ⟨by rfl, by omega⟩

/-- Claim C5 (corrected): in both backends, `is_share_valid` is `True` iff
a grant for the token exists, its active flag is set, and the current time
is at most (not strictly before) its `expires_at`; and after a successful
`revoke` it is `False` at every time. -/
theorem C5_validate_semantics :
    (∀ (store : ShareStore) (token : String) (now : Int),
        is_share_valid store token now = true ↔
          ∃ s, get_share store token = some s ∧ s.is_active = true ∧
            now ≤ s.expires_at) ∧
    (∀ (tbl : ShareTable) (token : String) (now : Int),
        db_is_share_valid tbl token now = true ↔
          ∃ r, db_get_share tbl token = some r ∧ r.is_active = true ∧
            now ≤ r.expires_at) ∧
    (∀ (store : ShareStore) (token : String) (now : Int),
        (revoke_share store token).1 = true →
          is_share_valid (revoke_share store token).2 token now = false) ∧
    (∀ (tbl : ShareTable) (token : String) (now : Int),
        (db_revoke_share tbl token).1 = true →
          db_is_share_valid (db_revoke_share tbl token).2 token now = false) := by
  refine ⟨?_, ?_, ?_, ?_⟩
  · intro store token now
    unfold is_share_valid get_share
    cases h : List.lookup token store with
    | none => simp [h]
    | some s =>
      by_cases ha : s.is_active <;> by_cases hb : now > s.expires_at <;>
        simp [h, ha, hb] <;> omega
  · intro tbl token now
    unfold db_is_share_valid
    cases h : db_get_share tbl token with
    | none => simp [h]
    | some s =>
      by_cases ha : s.is_active <;> by_cases hb : now > s.expires_at <;>
        simp [h, ha, hb] <;> omega
  · intro store token now h
    unfold revoke_share at h ⊢
    by_cases hl : (List.lookup token store).isSome
    · obtain ⟨s, hs⟩ := Option.isSome_iff_exists.mp hl
      simp only [hl, if_true]
      unfold is_share_valid
      rw [lookup_map_update store token fun m => { m with is_active := false },
        hs]
      rfl
    · simp [hl] at h
  · intro tbl token now h
    unfold db_revoke_share at h
    simp only [decide_eq_true_eq] at h
    obtain ⟨r, hr, hp⟩ := List.countP_pos_iff.mp h
    unfold db_is_share_valid db_get_share db_revoke_share
    have hsome : (List.find? (fun r => r.share_token == token) tbl).isSome := by
      exact List.find?_isSome.mpr ⟨r, hr, hp⟩
    obtain ⟨r0, hr0⟩ := Option.isSome_iff_exists.mp hsome
    have hpr0 := List.find?_some hr0
    rw [find?_map_revoke, hr0]
    simp [beq_iff_eq.mp hpr0]

/-- Witness for C5's revoke conjuncts at a concrete store and table. -/
theorem C5_validate_semantics_witness :
    is_share_valid
        (revoke_share [("t", ⟨"r", 0, 100, 0, true⟩)] "t").2 "t" 5 = false ∧
      db_is_share_valid
        (db_revoke_share [⟨"r", "t", 0, 100, 0, true⟩] "t").2 "t" 5 = false :=
  ⟨C5_validate_semantics.2.2.1 [("t", ⟨"r", 0, 100, 0, true⟩)] "t" 5 (by rfl),
   C5_validate_semantics.2.2.2 [⟨"r", "t", 0, 100, 0, true⟩] "t" 5 (by rfl)⟩

/-! ## Claim C8 -/

/-- Claim C8, counterexample: on the durable route the adapter's delete is
a placeholder — deleting an id that has no record still returns `True`
(it also removes nothing), so "delete returns true iff a record existed"
fails under the durable backend. -/
theorem C8_counterexample :
    (adapter_delete_parsed_data true [] [] "x").1 = true ∧
      db_get_parsed_data [] "x" = none ∧
      get_parsed_resume ([] : ResumeStore RawRecord) "x" = none :=
  ⟨rfl, rfl, rfl⟩

/-- Claim C8 (corrected): the ephemeral `delete_parsed_resume` does return
`True` iff a record existed and leaves the id absent afterwards; the
durable route of `adapter_delete_parsed_data`, however, is a placeholder
that returns `True` unconditionally and changes nothing. -/
theorem C8_delete_semantics :
    (∀ (α : Type) (st : ResumeStore α) (resume_id : String),
        (delete_parsed_resume st resume_id).1 = true ↔
          (get_parsed_resume st resume_id).isSome = true) ∧
    (∀ (α : Type) (st : ResumeStore α) (resume_id : String),
        get_parsed_resume (delete_parsed_resume st resume_id).2 resume_id =
          none) ∧
    (∀ (tbl : ParsedTable) (st : ResumeStore RawRecord) (resume_id : String),
        adapter_delete_parsed_data true tbl st resume_id = (true, tbl, st)) := by
  refine ⟨?_, ?_, fun _ _ _ => rfl⟩
  · intro α st resume_id
    unfold delete_parsed_resume get_parsed_resume
    by_cases h : (List.lookup resume_id st).isSome <;> simp [h]
  · intro α st resume_id
    unfold delete_parsed_resume get_parsed_resume
    by_cases h : (List.lookup resume_id st).isSome
    · simp [h, lookup_filter_self]
    · simp only [h, if_false, Bool.false_eq_true]
      simp only [Option.not_isSome_iff_eq_none] at h
      simp [h]

/-! ## Claim C1 -/

/-- Claim C1, counterexample: with the ephemeral backend selected
(`USE_DATABASE` unset) the upload endpoint performs no duplicate-hash
check — two submissions of content with the same hash return different ids
and start two pipeline executions. -/
theorem C1_counterexample :
    (upload_resume false
        (upload_resume false ⟨[], []⟩ "h" "id1").2.1 "h" "id2").1 ≠
        (upload_resume false ⟨[], []⟩ "h" "id1").1 ∧
      runsFor
        (upload_resume false
          (upload_resume false ⟨[], []⟩ "h" "id1").2.1 "h" "id2").2.1 "h" = 2 := by
  refine ⟨?_, by rfl⟩
  intro h
  simp [upload_resume] at h

/-- Claim C1 (corrected): only when the durable backend is selected does a
second submission with the same content hash resolve to the job id created
by the first and start no second pipeline execution — exactly one
`parse_resume` run occurs for that hash. -/
theorem C1_dedup_database (st : UploadState) (h fresh1 fresh2 : String)
    (hfresh : findByHash st.dbResumes h = none)
    (hruns : runsFor st h = 0) :
    (upload_resume true st h fresh1).1 = fresh1 ∧
      (upload_resume true st h fresh1).2.2 = true ∧
      (upload_resume true (upload_resume true st h fresh1).2.1 h fresh2).1 =
        fresh1 ∧
      (upload_resume true (upload_resume true st h fresh1).2.1 h fresh2).2.2 =
        false ∧
      runsFor
        (upload_resume true (upload_resume true st h fresh1).2.1 h fresh2).2.1
        h = 1 := by
  have hfind : List.find? (fun p => p.2 == h) st.dbResumes = none := by
    unfold findByHash at hfresh
    exact Option.map_eq_none'.mp hfresh
  have hfind2 :
      findByHash (st.dbResumes ++ [(fresh1, h)]) h = some fresh1 := by
    unfold findByHash
    rw [List.find?_append, hfind]
    simp
  have h1 : upload_resume true st h fresh1 =
      (fresh1,
       ⟨st.dbResumes ++ [(fresh1, h)], st.runs ++ [(fresh1, h)]⟩, true) := by
    unfold upload_resume
    rw [hfresh]
    rfl
  have h2 : upload_resume true
      (⟨st.dbResumes ++ [(fresh1, h)], st.runs ++ [(fresh1, h)]⟩ : UploadState)
      h fresh2 =
      (fresh1,
       ⟨st.dbResumes ++ [(fresh1, h)], st.runs ++ [(fresh1, h)]⟩, false) := by
    unfold upload_resume
    rw [hfind2]
    rfl
  rw [h1]
  rw [h2]
  refine ⟨rfl, rfl, rfl, rfl, ?_⟩
  unfold runsFor at hruns ⊢
  simp [List.countP_append, hruns]

/-- Witness for C1 at a concrete empty state. -/
theorem C1_dedup_database_witness :
    (upload_resume true ⟨[], []⟩ "h" "a").1 = "a" ∧
      (upload_resume true ⟨[], []⟩ "h" "a").2.2 = true ∧
      (upload_resume true (upload_resume true ⟨[], []⟩ "h" "a").2.1 "h" "b").1 =
        "a" ∧
      (upload_resume true (upload_resume true ⟨[], []⟩ "h" "a").2.1 "h" "b").2.2 =
        false ∧
      runsFor
        (upload_resume true (upload_resume true ⟨[], []⟩ "h" "a").2.1 "h" "b").2.1
        "h" = 1 :=
  C1_dedup_database ⟨[], []⟩ "h" "a" "b" (by rfl) (by rfl)

/-! ## Claims C2 and C7 -/

/-- The delivery loop never raises, and it partitions the walked set into
the successful deliveries and the failed ones. -/
theorem broadcastLoop_eq (conns : List Conn) :
    broadcastLoop conns =
      .ok (conns.filter deliveryOk, conns.filter fun c => !deliveryOk c) := by
  induction conns with
  | nil => rfl
  | cons c rest ih =>
    have hstep :
        (if c.clientState ≠ some "DISCONNECTED" then
          match c.send with
          | .ok => (Except.ok ([c], []) : Except String (List Conn × List Conn))
          | .raises _ => .ok ([], [c])
        else .ok ([], [c])) =
          .ok (if deliveryOk c then ([c], []) else ([], [c])) := by
      unfold deliveryOk
      by_cases hcs : c.clientState = some "DISCONNECTED"
      · simp [hcs]
      · cases hsend : c.send with
        | ok => simp [hcs, hsend]
        | raises m => simp [hcs, hsend]
    unfold broadcastLoop
    rw [hstep, ih]
    by_cases hok : deliveryOk c = true
    · simp [hok, List.filter]
    · simp only [Bool.not_eq_true] at hok
      simp [hok, List.filter]

/-- Claim C2 (confirmed): for every registry and job id — hence every
subscriber set, with each subscriber's observed state and delivery outcome
arbitrary — `broadcast_to_resume` returns normally (no exception reaches
the caller), and every subscriber whose delivery does not fail (not
observed `'DISCONNECTED'`, `send_json` does not raise) is among the
delivered ones. -/
theorem C2_publish_total (reg : Registry) (resume_id : String) :
    ∃ res, broadcast_to_resume reg resume_id = Except.ok res ∧
      ∀ c ∈ subscribersOf reg resume_id,
        deliveryOk c = true → c ∈ res.1 := by
  unfold broadcast_to_resume subscribersOf
  cases h : List.lookup resume_id reg with
  | none => exact ⟨([], reg), rfl, by simp⟩
  | some conns =>
    simp only [broadcastLoop_eq]
    refine ⟨_, rfl, ?_⟩
    intro c hc hok
    simp only [Option.getD_some] at hc
    exact List.mem_filter.mpr ⟨hc, hok⟩

/-- Witness for C2 at a concrete registry: one healthy subscriber, one
observed disconnected, one whose send raises. -/
theorem C2_publish_total_witness :
    ∃ res,
      broadcast_to_resume
          [("r", [⟨0, none, .ok⟩, ⟨1, some "DISCONNECTED", .ok⟩,
                  ⟨2, none, .raises "boom"⟩])] "r" =
        Except.ok res ∧
      ∀ c ∈ subscribersOf
          [("r", [⟨0, none, .ok⟩, ⟨1, some "DISCONNECTED", .ok⟩,
                  ⟨2, none, .raises "boom"⟩])] "r",
        deliveryOk c = true → c ∈ res.1 :=
  C2_publish_total
    [("r", [⟨0, none, .ok⟩, ⟨1, some "DISCONNECTED", .ok⟩,
            ⟨2, none, .raises "boom"⟩])] "r"

/-- Claim C7 (confirmed): `broadcast_to_resume` coincides with the spec's
snapshot-then-mutate `publish`: deliveries and failures are computed from
the subscriber set as read at entry, with no registry mutation during the
walk, and the collected removals are applied only afterwards. -/
theorem C7_publish_snapshot_then_mutate (reg : Registry) (resume_id : String) :
    broadcast_to_resume reg resume_id =
      Except.ok (specPublish reg resume_id) := by
  unfold broadcast_to_resume specPublish subscribersOf
  cases h : List.lookup resume_id reg with
  | none => simp
  | some conns => simp only [broadcastLoop_eq, Option.getD_some]

/-! ## Claims C3, C4 and C9 -/

/-- A non-empty extracted text has a true truthiness test. -/
theorem not_isEmpty_of_ne (t : String) (h : t ≠ "") : (!t.isEmpty) = true := by
  have h2 : t.isEmpty = false := by
    rw [Bool.eq_false_iff]
    intro he
    exact h ((String.isEmpty_iff t).mp he)
  simp [h2]

/-- Claim C3 (confirmed): when extraction succeeds with non-empty text (so
AI enhancement is invoked, `enable_ai` set), NLP parsing succeeds with
record `d0` and the `enhance` call raises, the run still completes: the
outcome is `d0`, the save call receives exactly `d0`, and the final event
is the completion event carrying (the serialization of) `d0`. -/
theorem C3_ai_failure_soft {α : Type} (serialize : α → α) (resume_id : String)
    (ext : FileExt) (regular ocr : Except String String) (d0 : α)
    (msg t : String) (hext : (extract_text ext regular ocr).1 = .ok t)
    (ht : t ≠ "") :
    (parse_resume serialize resume_id ext regular ocr (.ok d0) (.error msg)
        true).outcome = .ok d0 ∧
    (parse_resume serialize resume_id ext regular ocr (.ok d0) (.error msg)
        true).persisted = some (resume_id, d0) ∧
    (parse_resume serialize resume_id ext regular ocr (.ok d0) (.error msg)
        true).events.getLast? = some (mkComplete (serialize d0)) := by
  unfold parse_resume
  rw [hext]
  have hb : (true && !t.isEmpty) = true := by
    simp [not_isEmpty_of_ne t ht]
  simp only [hb, if_true]
  refine ⟨?_, ?_, ?_⟩ <;> trivial

/-- Witness for C3 at a concrete run (`α := Nat`, identity serialization,
TXT input). -/
theorem C3_ai_failure_soft_witness :
    (parse_resume (fun n => n) "r" .txt (.ok "hello") (.ok "") (.ok 7)
        (.error "quota") true).outcome = .ok 7 ∧
    (parse_resume (fun n => n) "r" .txt (.ok "hello") (.ok "") (.ok 7)
        (.error "quota") true).persisted = some ("r", 7) ∧
    (parse_resume (fun n => n) "r" .txt (.ok "hello") (.ok "") (.ok 7)
        (.error "quota") true).events.getLast? = some (mkComplete 7) :=
  C3_ai_failure_soft (fun n => n) "r" .txt (.ok "hello") (.ok "") 7 "quota"
    "hello" (by rfl) (by decide)

/-- Claim C4 (confirmed): (a) for every supported input whose regular
extraction yields text of length at least `MIN_TEXT_LENGTH`, the OCR
fallback is never invoked and `extract_text` returns that text; (b) for a
PDF input (the route on which the OCR fallback exists) whose regular text
is below the threshold and whose OCR fails, extraction raises
`OCRExtractionError`, the run ends with an error outcome and a final
`error`-stage event, and nothing is persisted. -/
theorem C4_ocr_fallback :
    (∀ (ext : FileExt) (regular ocr : Except String String) (t : String),
        (ext = .pdf ∨ ext = .docx ∨ ext = .doc ∨ ext = .txt) →
        regular = .ok t → MIN_TEXT_LENGTH ≤ t.length →
        extract_text ext regular ocr = (.ok t, false)) ∧
    (∀ (α : Type) (serialize : α → α) (resume_id : String)
        (regular ocr : Except String String) (nlpR aiR : Except String α)
        (enable_ai : Bool) (t m : String),
        regular = .ok t → t.length < MIN_TEXT_LENGTH → ocr = .error m →
        (parse_resume serialize resume_id .pdf regular ocr nlpR aiR
            enable_ai).outcome =
          .error (.ocrExtractionError ("OCR extraction failed: " ++ m)) ∧
        (parse_resume serialize resume_id .pdf regular ocr nlpR aiR
            enable_ai).persisted = none ∧
        ((parse_resume serialize resume_id .pdf regular ocr nlpR aiR
            enable_ai).events.getLast?).map (·.stage) = some .error) := by
  constructor
  · intro ext regular ocr t hsupported hreg hlen
    subst hreg
    have hne : t.isEmpty = false := by
      rw [Bool.eq_false_iff]
      intro he
      have h3 := (String.isEmpty_iff t).mp he
      subst h3
      simp [MIN_TEXT_LENGTH] at hlen
    have hsuff : is_text_sufficient t = true := by
      unfold is_text_sufficient
      simp [hne, hlen]
    rcases hsupported with rfl | rfl | rfl | rfl
    · unfold extract_text extract_text_with_ocr
      simp [hsuff]
    · rfl
    · rfl
    · rfl
  · intro α serialize resume_id regular ocr nlpR aiR enable_ai t m hreg hlen
      hocr
    subst hreg
    subst hocr
    have hsuff : is_text_sufficient t = false := by
      unfold is_text_sufficient
      by_cases he : t.isEmpty
      · simp [he]
      · simp only [he, Bool.false_eq_true, if_false]
        simpa using Nat.not_le_of_lt hlen
    have hres : (extract_text .pdf (.ok t) (.error m)).1 =
        .error (.ocrExtractionError ("OCR extraction failed: " ++ m)) := by
      unfold extract_text extract_text_with_ocr
      simp [hsuff]
    unfold parse_resume
    rw [hres]
    refine ⟨?_, ?_, ?_⟩ <;> trivial

/-- Witness for C4 at concrete inputs: a 100-character TXT extraction on
one side, a short-text PDF with failing OCR on the other. -/
theorem C4_ocr_fallback_witness :
    extract_text .txt
        (.ok (String.mk (List.replicate 100 'a'))) (.error "no OCR") =
      (.ok (String.mk (List.replicate 100 'a')), false) ∧
    (parse_resume (fun n : Nat => n) "r" .pdf (.ok "short") (.error "no OCR")
        (.ok 0) (.ok 0) true).outcome =
      .error (.ocrExtractionError ("OCR extraction failed: " ++ "no OCR")) ∧
    (parse_resume (fun n : Nat => n) "r" .pdf (.ok "short") (.error "no OCR")
        (.ok 0) (.ok 0) true).persisted = none :=
  ⟨C4_ocr_fallback.1 .txt (.ok (String.mk (List.replicate 100 'a')))
      (.error "no OCR") (String.mk (List.replicate 100 'a'))
      (by simp) (by rfl) (by decide),
   (C4_ocr_fallback.2 Nat (fun n => n) "r" (.ok "short") (.error "no OCR")
      (.ok 0) (.ok 0) true "short" "no OCR" (by rfl) (by decide) (by rfl)).1,
   (C4_ocr_fallback.2 Nat (fun n => n) "r" (.ok "short") (.error "no OCR")
      (.ok 0) (.ok 0) true "short" "no OCR" (by rfl) (by decide) (by rfl)).2.1⟩

/-- Claim C9, counterexample: in the run where NLP extraction fails, the
`nlp_parsing` stage publishes the progress sequence `[40, 60, 0]` — the
failure handler emits progress 0 after 40 and 60, so the per-stage
progress sequence of a single run is not monotonically non-decreasing. -/
theorem C9_counterexample :
    stageProgresses
        (parse_resume (fun n : Nat => n) "r" .txt (.ok "x") (.ok "")
          (.error "boom") (.ok 0) true) .nlp_parsing = [40, 60, 0] ∧
      ¬ List.Chain' (· ≤ ·)
        (stageProgresses
          (parse_resume (fun n : Nat => n) "r" .txt (.ok "x") (.ok "")
            (.error "boom") (.ok 0) true) .nlp_parsing) := by
  constructor
  · rfl
  · show ¬ List.Chain' (· ≤ ·) ([40, 60, 0] : List Int)
    simp [List.chain'_cons]

/-- Claim C9 (corrected): every published event's progress lies in
`[0, 100]` (the `ProgressUpdate` constructor clamps), and in every run
that completes (no fatal stage failure) the progress sequence published
within each stage is monotonically non-decreasing; the monotonicity fails
only on fatal-failure runs, where the failing stage emits 0 last. -/
theorem C9_progress_bounds_monotone :
    (∀ (α : Type) (serialize : α → α) (resume_id : String) (ext : FileExt)
        (regular ocr : Except String String) (nlpR aiR : Except String α)
        (enable_ai : Bool),
        ∀ ev ∈ (parse_resume serialize resume_id ext regular ocr nlpR aiR
            enable_ai).events,
          0 ≤ ev.progress ∧ ev.progress ≤ 100) ∧
    (∀ (α : Type) (serialize : α → α) (resume_id : String) (ext : FileExt)
        (regular ocr : Except String String) (nlpR aiR : Except String α)
        (enable_ai : Bool),
        (parse_resume serialize resume_id ext regular ocr nlpR aiR
            enable_ai).outcome.isOk = true →
        ∀ s, List.Chain' (· ≤ ·)
          (stageProgresses
            (parse_resume serialize resume_id ext regular ocr nlpR aiR
              enable_ai) s)) := by
  constructor
  · intro α serialize resume_id ext regular ocr nlpR aiR enable_ai ev hev
    unfold parse_resume at hev
    rcases hx : (extract_text ext regular ocr).1 with e | t <;> rw [hx] at hev
    · rcases e with m | m | m <;>
        simp only [List.mem_cons, List.not_mem_nil, or_false] at hev <;>
        rcases hev with rfl | rfl | rfl | rfl <;>
        simp [mkProgress, mkError, clampProgress]
    · rcases nlpR with m | d0
      · simp only [List.mem_cons, List.not_mem_nil, or_false] at hev
        rcases hev with rfl | rfl | rfl | rfl | rfl | rfl | rfl <;>
          simp [mkProgress, mkError, clampProgress]
      · rcases hcond : (enable_ai && !t.isEmpty) with _ | _
        · simp only [hcond, Bool.false_eq_true, if_false, List.nil_append,
            List.mem_append, List.mem_cons, List.not_mem_nil, or_false,
            or_assoc] at hev
          rcases hev with rfl | rfl | rfl | rfl | rfl | rfl | rfl <;>
            simp [mkProgress, mkComplete, clampProgress]
        · rcases aiR with m | d1 <;>
            simp only [hcond, if_true, List.mem_append, List.mem_cons,
              List.not_mem_nil, or_false, or_assoc] at hev <;>
            rcases hev with rfl | rfl | rfl | rfl | rfl | rfl | rfl | rfl | rfl <;>
            simp [mkProgress, mkComplete, clampProgress]
  · intro α serialize resume_id ext regular ocr nlpR aiR enable_ai hok s
    unfold parse_resume at hok ⊢
    rcases hx : (extract_text ext regular ocr).1 with e | t <;>
      rw [hx] at hok
    · simp [Except.isOk, Except.toBool] at hok
    · rcases nlpR with m | d0
      · simp [Except.isOk, Except.toBool] at hok
      · rcases hcond : (enable_ai && !t.isEmpty) with _ | _
        · simp only [hcond, Bool.false_eq_true, if_false]
          cases s <;>
            simp [stageProgresses, mkProgress, mkComplete, clampProgress,
              List.filter_cons, List.chain'_cons]
        · rcases aiR with m | d1 <;> simp only [hcond, if_true] <;>
            cases s <;>
            simp [stageProgresses, mkProgress, mkComplete, clampProgress,
              List.filter_cons, List.chain'_cons]

/-- Witness for C9 at a concrete completed run: the bound on its first
event and the monotone `nlp_parsing` sequence. -/
theorem C9_progress_bounds_monotone_witness :
    (0 ≤ (mkProgress (α := Nat) .text_extraction 10
        "Starting text extraction...").progress ∧
      (mkProgress (α := Nat) .text_extraction 10
        "Starting text extraction...").progress ≤ 100) ∧
    List.Chain' (· ≤ ·)
      (stageProgresses
        (parse_resume (fun n : Nat => n) "r" .txt (.ok "hello") (.ok "")
          (.ok 1) (.error "q") true) .nlp_parsing) :=
  ⟨C9_progress_bounds_monotone.1 Nat (fun n => n) "r" .txt (.ok "hello")
      (.ok "") (.ok 1) (.error "q") true
      (mkProgress .text_extraction 10 "Starting text extraction...")
      (List.Mem.head _),
   C9_progress_bounds_monotone.2 Nat (fun n => n) "r" .txt (.ok "hello")
      (.ok "") (.ok 1) (.error "q") true (by rfl) .nlp_parsing⟩

/-! ## Claim C6: string-validator lemmas -/

/-- `Char.ofNat` of a valid scalar value round-trips through `toNat`. -/
theorem charToNatOfNat (n : Nat) (h : Nat.isValidChar n) :
    (Char.ofNat n).toNat = n := by
  unfold Char.ofNat
  rw [dif_pos h]
  rfl

/-- `lowerChar` unfolded. -/
theorem lowerChar_def (c : Char) : lowerChar c =
    if 65 ≤ c.toNat ∧ c.toNat ≤ 90 then Char.ofNat (c.toNat + 32) else c :=
  rfl

/-- Lowering an upper-case ASCII letter adds 32 to its scalar value. -/
theorem lowerChar_toNat (c : Char) (h : 65 ≤ c.toNat ∧ c.toNat ≤ 90) :
    (lowerChar c).toNat = c.toNat + 32 := by
  rw [lowerChar_def, if_pos h]
  apply charToNatOfNat
  left
  omega

/-- `lowerChar` is idempotent. -/
theorem lowerChar_idem (c : Char) : lowerChar (lowerChar c) = lowerChar c := by
  by_cases h : 65 ≤ c.toNat ∧ c.toNat ≤ 90
  · have h2 : (lowerChar c).toNat = c.toNat + 32 := lowerChar_toNat c h
    have h3 : ¬(65 ≤ (lowerChar c).toNat ∧ (lowerChar c).toNat ≤ 90) := by
      omega
    rw [lowerChar_def (lowerChar c), if_neg h3]
  · rw [lowerChar_def c, if_neg h, lowerChar_def c, if_neg h]

/-- For a target character outside both ASCII letter ranges (such as `'@'`
or `'.'`), lowering does not affect equality with it. -/
theorem lowerChar_eq_iff (c d : Char) (hd1 : d.toNat < 65 ∨ 90 < d.toNat)
    (hd2 : d.toNat < 97 ∨ 122 < d.toNat) : lowerChar c = d ↔ c = d := by
  by_cases h : 65 ≤ c.toNat ∧ c.toNat ≤ 90
  · have h2 : (lowerChar c).toNat = c.toNat + 32 := lowerChar_toNat c h
    constructor
    · intro he
      exfalso
      rw [he] at h2
      have : d.toNat = c.toNat + 32 := h2
      omega
    · intro he
      exfalso
      rw [he] at h
      omega
  · rw [lowerChar_def, if_neg h]

/-- Boolean form of `lowerChar_eq_iff`. -/
theorem lowerChar_beq (c d : Char) (hd1 : d.toNat < 65 ∨ 90 < d.toNat)
    (hd2 : d.toNat < 97 ∨ 122 < d.toNat) :
    (lowerChar c == d) = (c == d) := by
  by_cases hc : c = d
  · rw [beq_iff_eq.mpr hc,
      beq_iff_eq.mpr ((lowerChar_eq_iff c d hd1 hd2).mpr hc)]
  · rw [beq_eq_false_iff_ne.mpr hc,
      beq_eq_false_iff_ne.mpr (fun he => hc ((lowerChar_eq_iff c d hd1 hd2).mp he))]

/-- Membership of such a character is invariant under lowering. -/
theorem strContains_pyLower (s : Str) (d : Char)
    (hd1 : d.toNat < 65 ∨ 90 < d.toNat)
    (hd2 : d.toNat < 97 ∨ 122 < d.toNat) :
    strContains (pyLower s) d = strContains s d := by
  induction s with
  | nil => rfl
  | cons c cs ih =>
    unfold pyLower strContains at ih ⊢
    simp only [List.map_cons, List.any_cons]
    rw [lowerChar_beq c d hd1 hd2, ih]

/-- `splitChar` always yields at least one piece. -/
theorem splitChar_ne_nil (sep : Char) (s : Str) : splitChar sep s ≠ [] := by
  induction s with
  | nil => simp [splitChar]
  | cons c cs ih =>
    unfold splitChar
    by_cases hc : c = sep
    · simp [hc]
    · rw [if_neg hc]
      rcases hsp : splitChar sep cs with _ | ⟨h, t⟩
      · exact absurd hsp ih
      · simp

/-- Splitting at `'@'` commutes with lowering. -/
theorem splitChar_pyLower (s : Str) :
    splitChar '@' (pyLower s) = (splitChar '@' s).map pyLower := by
  have hat : ∀ c : Char, lowerChar c = '@' ↔ c = '@' := fun c =>
    lowerChar_eq_iff c '@' (by decide) (by decide)
  induction s with
  | nil => rfl
  | cons c cs ih =>
    unfold pyLower at ih ⊢
    simp only [List.map_cons]
    by_cases hc : c = '@'
    · subst hc
      have h1 : lowerChar '@' = '@' := (hat '@').mpr rfl
      rw [h1]
      unfold splitChar
      simp only [if_pos rfl]
      rw [ih]
      rfl
    · have hc2 : lowerChar c ≠ '@' := fun he => hc ((hat c).mp he)
      unfold splitChar
      rw [if_neg hc2, if_neg hc, ih]
      rcases hsp : splitChar '@' cs with _ | ⟨h, t⟩
      · exact absurd hsp (splitChar_ne_nil '@' cs)
      · rfl

/-- `getLastD` of a mapped list against a mapped default. -/
theorem getLastD_map (f : Str → Str) (L : List Str) (d : Str) :
    (L.map f).getLastD (f d) = f (L.getLastD d) := by
  induction L generalizing d with
  | nil => rfl
  | cons a rest ih =>
    rw [List.map_cons, List.getLastD_cons, List.getLastD_cons, ih]

/-- `pyLower` is idempotent. -/
theorem pyLower_idem (s : Str) : pyLower (pyLower s) = pyLower s := by
  unfold pyLower
  rw [List.map_map]
  exact List.map_congr_left fun c _ => lowerChar_idem c

/-- The last `'@'`-piece of a lowered string is the lowered last piece. -/
theorem lastSplitPiece_pyLower (s : Str) :
    lastSplitPiece '@' (pyLower s) = pyLower (lastSplitPiece '@' s) := by
  unfold lastSplitPiece
  rw [splitChar_pyLower]
  exact getLastD_map pyLower (splitChar '@' s) []

/-- The email validator is idempotent. -/
theorem validate_email_idem (v : Option Str) :
    validate_email (validate_email v) = validate_email v := by
  rcases v with _ | s
  · rfl
  · unfold validate_email
    rcases hc : (strContains s '@' &&
        strContains (lastSplitPiece '@' s) '.') with _ | _
    · simp only [hc, Bool.false_eq_true, if_false]
    · have e1 : strContains (pyLower s) '@' = strContains s '@' :=
        strContains_pyLower s '@' (by decide) (by decide)
      have e2 : strContains (lastSplitPiece '@' (pyLower s)) '.' =
          strContains (lastSplitPiece '@' s) '.' := by
        rw [lastSplitPiece_pyLower]
        exact strContains_pyLower (lastSplitPiece '@' s) '.' (by decide)
          (by decide)
      simp only [hc, if_true, e1, e2, pyLower_idem]

/-- The phone validator is idempotent. -/
theorem validate_phone_idem (v : Option Str) :
    validate_phone (validate_phone v) = validate_phone v := by
  rcases v with _ | s
  · rfl
  · unfold validate_phone
    rcases hc : (!(s.filter fun c => !isPhoneSep c).isEmpty &&
        decide (10 ≤ (s.filter fun c => !isPhoneSep c).length)) with _ | _
    · simp only [hc, Bool.false_eq_true, if_false]
    · simp only [hc, if_true]

/-- Looking up `k` after an in-place overwrite at `k` (dict assignment on
an existing key). -/
theorem lookup_map_const {β : Type} (store : List (String × β)) (k : String)
    (v : β) :
    List.lookup k (store.map fun p => if p.1 == k then (p.1, v) else p) =
      (List.lookup k store).map fun _ => v := by
  induction store with
  | nil => rfl
  | cons a rest ih =>
    obtain ⟨ka, va⟩ := a
    by_cases h : ka = k
    · subst h
      simp only [List.map_cons, beq_self_eq_true, if_true]
      simp only [List.lookup, beq_self_eq_true, ih]
      rfl
    · have hk : (k == ka) = false := beq_eq_false_iff_ne.mpr fun e => h e.symm
      have hk2 : (ka == k) = false := beq_eq_false_iff_ne.mpr h
      simp only [List.map_cons, hk2, Bool.false_eq_true, if_false]
      simp only [List.lookup, hk, ih]

/-- A validated record with no categorized languages/certifications survives
the durable JSONB round trip up to the adapter's nested-shape projection:
writing it with `_parsed_data_to_jsonb`, reading it back with
`_jsonb_to_parsed_data` (validators running again) and projecting to the
nested shape equals projecting the record directly. -/
theorem nested_roundtrip (p : ParsedData)
    (hcert : p.certifications = []) (hlang : p.languages = [])
    (hemail : validate_email p.email = p.email)
    (hphone : validate_phone p.phone = p.phone) :
    parsedDataToNestedDict (jsonbToParsedData (parsedDataToJsonb p)) =
      parsedDataToNestedDict p := by
  unfold parsedDataToJsonb jsonbToParsedData validateParsedData
    parsedDataToNestedDict
  simp only [hemail, hphone, hcert, hlang]

/-- Claim C6 (corrected): under the ephemeral backend, `save` then `get`
returns exactly the record saved.  Under the durable backend, for a fresh
job id, `save` then `get` returns the shape-normalized record provided the
record's categorized skills carry no `languages`/`certifications`
entries — the JSONB layer persists only the flat skills list, so those
categories do not survive the round trip (see the counterexample). -/
theorem C6_save_get_roundtrip :
    (∀ (α : Type) (st : ResumeStore α) (resume_id : String) (r : α)
        (now : Int),
        get_parsed_resume (save_parsed_resume st resume_id r now) resume_id =
          some r) ∧
    (∀ (tbl : ParsedTable) (resume_id : String) (r : RawRecord),
        List.lookup resume_id tbl = none →
        lookupSkillKey r.skills languagesKey = none →
        lookupSkillKey r.skills certificationsKey = none →
        adapter_get_parsed_data_db
            (adapter_save_parsed_data_db tbl resume_id r) resume_id =
          some (adapterShapeNormalize r)) := by
  constructor
  · intro α st rid r now
    unfold save_parsed_resume store_set get_parsed_resume
    by_cases h : (List.lookup rid st).isSome
    · obtain ⟨e, he⟩ := Option.isSome_iff_exists.mp h
      simp only [h, if_true]
      rw [lookup_map_const st rid ⟨r, now, none⟩, he]
      rfl
    · simp only [h, Bool.false_eq_true, if_false]
      rw [lookup_append_fresh st rid ⟨r, now, none⟩
        (Option.not_isSome_iff_eq_none.mp (by simpa using h))]
      rfl
  · intro tbl rid r hfresh hlang hcert
    have hc : (normalizeNlpOutput r).certifications = [] := by
      unfold normalizeNlpOutput validateParsedData
      simp [hcert]
    have hl : (normalizeNlpOutput r).languages = [] := by
      unfold normalizeNlpOutput validateParsedData
      simp [hlang]
    have he : validate_email (normalizeNlpOutput r).email =
        (normalizeNlpOutput r).email := by
      unfold normalizeNlpOutput validateParsedData
      exact validate_email_idem _
    have hp : validate_phone (normalizeNlpOutput r).phone =
        (normalizeNlpOutput r).phone := by
      unfold normalizeNlpOutput validateParsedData
      exact validate_phone_idem _
    unfold adapter_save_parsed_data_db db_save_parsed_data
      adapter_get_parsed_data_db db_get_parsed_data adapterShapeNormalize
    rw [lookup_append_fresh tbl rid _ hfresh]
    simp only [Option.map_some']
    rw [nested_roundtrip (normalizeNlpOutput r) hc hl he hp]

/-- Witness for C6 at concrete stores: an ephemeral round trip, and a
durable round trip of a record whose skills are a flat list. -/
theorem C6_save_get_roundtrip_witness :
    get_parsed_resume (save_parsed_resume ([] : ResumeStore Nat) "a" 42 0)
        "a" = some 42 ∧
    adapter_get_parsed_data_db
        (adapter_save_parsed_data_db [] "id"
          ⟨⟨none, none, none, none, none, none, none, none⟩,
           .flat ["go".toList], [], [], [], [], 0⟩) "id" =
      some (adapterShapeNormalize
        ⟨⟨none, none, none, none, none, none, none, none⟩,
         .flat ["go".toList], [], [], [], [], 0⟩) :=
  ⟨C6_save_get_roundtrip.1 Nat [] "a" 42 0,
   C6_save_get_roundtrip.2 [] "id"
    ⟨⟨none, none, none, none, none, none, none, none⟩,
     .flat ["go".toList], [], [], [], [], 0⟩ (by rfl) (by rfl) (by rfl)⟩

/-- Claim C6, counterexample: a record whose categorized skills carry a
`languages` entry does not round-trip on the durable backend — the JSONB
write stores only the flat skills list, so the read-back nested record has
empty `languages` while the adapter's shape normalization of the original
carries `French`. -/
theorem C6_counterexample :
    adapter_get_parsed_data_db
        (adapter_save_parsed_data_db [] "id1"
          ⟨⟨none, none, none, none, none, none, none, none⟩,
           .dict [(languagesKey, ["French".toList])], [], [], [], [], 0⟩)
        "id1" ≠
      some (adapterShapeNormalize
        ⟨⟨none, none, none, none, none, none, none, none⟩,
         .dict [(languagesKey, ["French".toList])], [], [], [], [], 0⟩) := by
  decide

end ResumeParser
